import Mathlib

/-!
# Verification of the Games106 Homwork0 frame-pacing and presentation protocol

This development embeds the swapchain configuration logic
(src/Homwork0/base/VulkanSwapchain.cpp), the queue-family selection of
VulkanSwapchain::initSurface, and the per-frame submission protocol of
VulkanTriangle::render / VulkanExampleBase::renderLoop / windowResize
(src/Homwork0/triangle.cpp, src/Homwork0/base/vulkanexamplebase.cpp)
as executable Lean definitions, and proves the spec's claims about them.
-/

set_option autoImplicit false

namespace Games106

/-! ## Swapchain configuration (VulkanSwapchain::create) -/

/-- Vulkan present modes relevant to the selection loop. -/
inductive PresentModeKHR where
  | eFifo
  | eMailbox
  | eImmediate
  | eFifoRelaxed
  deriving DecidableEq, Repr

/-- 2D extent, widths and heights as machine uint32 values (kept as Nat). -/
structure Extent2D where
  width : Nat
  height : Nat
  deriving DecidableEq, Repr

/-- The fields of VkSurfaceCapabilitiesKHR consulted by VulkanSwapchain::create. -/
structure SurfaceCapabilitiesKHR where
  currentExtent : Extent2D
  minImageExtent : Extent2D
  maxImageExtent : Extent2D
  minImageCount : Nat
  maxImageCount : Nat
  deriving DecidableEq, Repr

/-- The uint32 value 0xFFFFFFFF, i.e. (uint32_t)-1, used by the surface to
report an undefined extent. -/
def UINT32_MAX : Nat := 4294967295

/-- Extent selection from VulkanSwapchain::create (VulkanSwapchain.cpp:132-146):
if the surface reports an undefined current extent (width equal to
(uint32_t)-1) the requested width/height are used as given; otherwise the
surface's current extent is used and the requested values are overwritten. -/
def chooseSwapchainExtent (surfCaps : SurfaceCapabilitiesKHR) (width height : Nat) :
    Extent2D :=
  if surfCaps.currentExtent.width = UINT32_MAX then
    { width := width, height := height }
  else
    surfCaps.currentExtent

/-- The extent the spec's words describe for C7: requested width/height clamped
into the surface's minImageExtent/maxImageExtent range.  This definition follows
the SPEC's sentence, not the source, and exists only to be compared with
chooseSwapchainExtent. -/
def clampedExtentSpec (surfCaps : SurfaceCapabilitiesKHR) (width height : Nat) :
    Extent2D :=
  { width := max surfCaps.minImageExtent.width (min width surfCaps.maxImageExtent.width)
    height := max surfCaps.minImageExtent.height (min height surfCaps.maxImageExtent.height) }

/-- The present-mode scan loop of VulkanSwapchain::create
(VulkanSwapchain.cpp:159-170): walking the advertised modes with the current
choice as accumulator; finding eMailbox selects it and breaks, finding
eImmediate selects it and continues scanning. -/
def presentModeScan : List PresentModeKHR → PresentModeKHR → PresentModeKHR
  | [], cur => cur
  | m :: rest, cur =>
    if m = PresentModeKHR.eMailbox then PresentModeKHR.eMailbox
    else if m = PresentModeKHR.eImmediate then presentModeScan rest PresentModeKHR.eImmediate
    else presentModeScan rest cur

/-- Present-mode selection from VulkanSwapchain::create
(VulkanSwapchain.cpp:148-171): start from eFifo; only when vsync is off run the
scan loop over the advertised modes. -/
def choosePresentMode (vsync : Bool) (presentModes : List PresentModeKHR) :
    PresentModeKHR :=
  if vsync then PresentModeKHR.eFifo
  else presentModeScan presentModes PresentModeKHR.eFifo

/-- Image-count request from VulkanSwapchain::create (VulkanSwapchain.cpp:173-178):
desired = minImageCount + 1 in uint32 arithmetic, then clamped down to
maxImageCount when that maximum is non-zero. -/
def desiredNumberOfSwapchainImages (surfCaps : SurfaceCapabilitiesKHR) : Nat :=
  if surfCaps.maxImageCount > 0 ∧
      (surfCaps.minImageCount + 1) % (UINT32_MAX + 1) > surfCaps.maxImageCount then
    surfCaps.maxImageCount
  else
    (surfCaps.minImageCount + 1) % (UINT32_MAX + 1)

/-- The parts of the VkSwapchainCreateInfoKHR that the claims talk about,
together with the by-reference width/height update performed by create. -/
structure SwapchainCreateResult where
  imageExtent : Extent2D
  presentMode : PresentModeKHR
  minImageCount : Nat
  newWidth : Nat
  newHeight : Nat
  deriving DecidableEq, Repr

/-- VulkanSwapchain::create (VulkanSwapchain.cpp:119-238), restricted to the
fields the spec's claims mention: extent choice, present-mode choice, image
count, and the width/height values written back through the reference
parameters. -/
def swapchainCreate (surfCaps : SurfaceCapabilitiesKHR)
    (presentModes : List PresentModeKHR) (width height : Nat) (vsync : Bool) :
    SwapchainCreateResult :=
  let extent := chooseSwapchainExtent surfCaps width height
  let newW := if surfCaps.currentExtent.width = UINT32_MAX then width
              else surfCaps.currentExtent.width
  let newH := if surfCaps.currentExtent.width = UINT32_MAX then height
              else surfCaps.currentExtent.height
  { imageExtent := extent
    presentMode := choosePresentMode vsync presentModes
    minImageCount := desiredNumberOfSwapchainImages surfCaps
    newWidth := newW
    newHeight := newH }

/-! ## Queue-family selection (VulkanSwapchain::initSurface) -/

/-- The two capabilities of a queue family that initSurface inspects:
the eGraphics queue flag and the surface-support query result. -/
structure QueueFamilyProps where
  graphics : Bool
  supportsPresent : Bool
  deriving DecidableEq, Repr

/-- First selection loop of initSurface (VulkanSwapchain.cpp:43-59): walk the
families with a running graphics candidate (UINT32_MAX modelled as none);
a graphics-capable family becomes the candidate if none is set yet, and a
family that is both graphics- and present-capable is chosen for both roles and
the loop breaks.  Returns (graphics index, present index). -/
def initSurfaceFirstPass : List QueueFamilyProps → Nat → Option Nat →
    Option Nat × Option Nat
  | [], _, g => (g, none)
  | q :: rest, i, g =>
    if q.graphics then
      if q.supportsPresent then (some i, some i)
      else initSurfaceFirstPass rest (i + 1) (if g = none then some i else g)
    else initSurfaceFirstPass rest (i + 1) g

/-- Second selection loop of initSurface (VulkanSwapchain.cpp:61-73): if no
present queue was found in the first pass, take the first family that supports
presentation. -/
def initSurfaceSecondPass : List QueueFamilyProps → Nat → Option Nat
  | [], _ => none
  | q :: rest, i =>
    if q.supportsPresent then some i else initSurfaceSecondPass rest (i + 1)

/-- Queue-family resolution of VulkanSwapchain::initSurface
(VulkanSwapchain.cpp:41-86): both passes, then the two fatal-exit checks
(missing graphics/presenting queue, or distinct queues), and on success the
single shared queueNodeIndex. -/
def initSurfaceSelect (queueProps : List QueueFamilyProps) : Except String Nat :=
  match (initSurfaceFirstPass queueProps 0 none).1,
      (if (initSurfaceFirstPass queueProps 0 none).2 = none then
        initSurfaceSecondPass queueProps 0
      else (initSurfaceFirstPass queueProps 0 none).2) with
  | some gi, some pi =>
    if gi ≠ pi then
      Except.error "Separate graphics and presenting queues are not supported yet!"
    else
      Except.ok gi
  | _, _ => Except.error "Could not find a graphics and/or presenting queue!"

/-- The surface-then-swapchain startup order of VulkanExampleBase::prepare
(vulkanexamplebase.cpp:166-176 via createSurface/createSwapchain): swapchain
creation runs only after initSurface has succeeded; a fatal exit in initSurface
(modelled as Except.error) never reaches VulkanSwapchain::create. -/
def prepareSurfaceAndSwapchain (queueProps : List QueueFamilyProps)
    (surfCaps : SurfaceCapabilitiesKHR) (presentModes : List PresentModeKHR)
    (width height : Nat) (vsync : Bool) : Except String SwapchainCreateResult :=
  match initSurfaceSelect queueProps with
  | Except.error e => Except.error e
  | Except.ok _ => Except.ok (swapchainCreate surfCaps presentModes width height vsync)

/-! ## Frame slot ring and per-frame submission protocol

VulkanTriangle::render (triangle.cpp:45-179) together with
VulkanExampleBase::renderLoop / windowResize / createSynchronizationPrimitives
(vulkanexamplebase.cpp:178-207, 438-490, 808-823).  Host-observable Vulkan
calls become events in a trace; per-slot fences are tracked explicitly with a
third, GPU-pending status. -/

/-- Host-observable status of a VkFence. pending means a queue submission
naming the fence was made and GPU completion has not yet been observed. -/
inductive FenceStatus where
  | signaled
  | unsignaled
  | pending
  deriving DecidableEq, Repr

/-- The two per-slot semaphore arrays of VulkanExampleBase. -/
inductive SemArray where
  | presentComplete
  | renderComplete
  deriving DecidableEq, Repr

/-- A reference to one semaphore: which array and which frame slot. -/
structure SemRef where
  arr : SemArray
  slot : Nat
  deriving DecidableEq, Repr

/-- Pipeline stages that can appear in pWaitDstStageMask. -/
inductive PipelineStageFlag where
  | topOfPipe
  | vertexShader
  | colorAttachmentOutput
  | bottomOfPipe
  deriving DecidableEq, Repr

/-- The vkQueueSubmit batch built by render (triangle.cpp:140-157). -/
structure SubmitCall where
  commandBufferCount : Nat
  commandBufferSlot : Nat
  waitSemaphores : List SemRef
  waitDstStageMask : List PipelineStageFlag
  signalSemaphores : List SemRef
  fenceSlot : Nat
  deriving DecidableEq, Repr

/-- The vkQueuePresentKHR call built by render (triangle.cpp:162-168). -/
structure PresentCallInfo where
  waitSemaphores : List SemRef
  imageIndex : Nat
  deriving DecidableEq, Repr

/-- Shared resources destroyed during reconfiguration or shutdown. -/
inductive ResourceKind where
  | oldSwapchainViews
  | oldSwapchainHandle
  | depthStencilRes
  | framebuffersRes
  | commandBuffersRes
  | fencesRes
  | swapchainRes
  | renderPassRes
  | semaphoresRes
  | pipelineRes
  | buffersRes
  deriving DecidableEq, Repr

/-- Host-side observable events of the protocol, in program order. -/
inductive Event where
  | waitFence (slot : Nat)
  | resetFence (slot : Nat)
  | acquireImage (slot : Nat)
  | updateUniform (slot : Nat)
  | resetCommandBuffer (slot : Nat)
  | recordCommands (slot : Nat) (imageIndex : Nat)
  | submit (c : SubmitCall)
  | presentCall (p : PresentCallInfo)
  | deviceWaitIdle
  | createSwapchainEvt
  | createDepthStencilEvt
  | createFramebuffersEvt
  | createCommandBuffersEvt
  | createFencesSignaledEvt
  | destroyResource (r : ResourceKind)
  | fatalThrow
  deriving DecidableEq, Repr

/-- vk::Result outcomes of vkAcquireNextImageKHR distinguished by render
(triangle.cpp:54-61). -/
inductive AcquireResult where
  | success
  | suboptimalKHR
  | errorOutOfDateKHR
  | otherError
  deriving DecidableEq, Repr

/-- vk::Result outcomes of vkQueuePresentKHR distinguished by render
(triangle.cpp:168-175). -/
inductive PresentResult where
  | success
  | suboptimalKHR
  | errorOutOfDateKHR
  | otherError
  deriving DecidableEq, Repr

/-- The flags member of VkFenceCreateInfo. -/
structure FenceCreateInfo where
  signaledFlag : Bool
  deriving DecidableEq, Repr

/-- Creating a fence yields the status requested by the create info. -/
def createFence (ci : FenceCreateInfo) : FenceStatus :=
  if ci.signaledFlag then FenceStatus.signaled else FenceStatus.unsignaled

/-- VulkanExampleBase::createSynchronizationPrimitives
(vulkanexamplebase.cpp:808-823): one fence per concurrent frame, each created
with the eSignaled flag set. -/
def createSynchronizationPrimitives (n : Nat) : List FenceStatus :=
  (List.range n).map (fun _ => createFence { signaledFlag := true })

/-- The mutable state of the protocol that the claims mention. -/
structure RenderState where
  currentFrame : Nat
  fences : List FenceStatus
  prepared : Bool
  resized : Bool
  deriving DecidableEq, Repr

/-- Read a slot's fence; out-of-range reads are treated as unsignaled. -/
def fenceGet (fences : List FenceStatus) (i : Nat) : FenceStatus :=
  fences.getD i FenceStatus.unsignaled

/-- vkDeviceWaitIdle resolves every pending fence to signaled. -/
def resolvePending (f : FenceStatus) : FenceStatus :=
  match f with
  | FenceStatus.pending => FenceStatus.signaled
  | f => f

/-- VulkanExampleBase::windowResize (vulkanexamplebase.cpp:438-490): early
return when not prepared; otherwise wait for device idle, recreate the
swapchain (destroying the old views and handle inside VulkanSwapchain::create),
recreate depth/stencil, framebuffers and command buffers, destroy the fences
and recreate them signaled via createSynchronizationPrimitives, wait idle
again, and mark prepared.  currentFrame is untouched. -/
def windowResizeModel (n : Nat) (s : RenderState) : RenderState × List Event :=
  if s.prepared then
    ({ s with
        fences := createSynchronizationPrimitives n
        prepared := true
        resized := true },
     [Event.deviceWaitIdle,
      Event.createSwapchainEvt,
      Event.destroyResource ResourceKind.oldSwapchainViews,
      Event.destroyResource ResourceKind.oldSwapchainHandle,
      Event.destroyResource ResourceKind.depthStencilRes,
      Event.createDepthStencilEvt,
      Event.destroyResource ResourceKind.framebuffersRes,
      Event.createFramebuffersEvt,
      Event.destroyResource ResourceKind.commandBuffersRes,
      Event.createCommandBuffersEvt,
      Event.destroyResource ResourceKind.fencesRes,
      Event.createFencesSignaledEvt,
      Event.deviceWaitIdle])
  else
    (s, [])

/-- Result of one VulkanTriangle::render call.  deadlock marks the infinite
vkWaitForFences on a fence that is unsignaled with no pending submission, which
can never return; fatal marks the throw statements. -/
inductive RenderOutcome where
  | ok (s : RenderState) (tr : List Event)
  | deadlock (tr : List Event)
  | fatal (tr : List Event)
  deriving DecidableEq, Repr

/-- The trace of events a render call produced, whatever its outcome. -/
def RenderOutcome.trace : RenderOutcome → List Event
  | RenderOutcome.ok _ tr => tr
  | RenderOutcome.deadlock tr => tr
  | RenderOutcome.fatal tr => tr

/-- VulkanTriangle::render (triangle.cpp:45-179).  In program order:
vkWaitForFences on waitFences[currentFrame] with UINT64_MAX (returning only
once the fence is signaled; a pending fence resolves when the GPU finishes,
an unsignaled fence with no submission blocks forever), vkResetFences,
vkAcquireNextImageKHR signaling presentCompleteSemaphores[currentFrame]
(out-of-date aborts the frame via windowResize; other failures throw;
suboptimal continues like success), the uniform-buffer memcpy, command buffer
reset and re-record, vkQueueSubmit waiting on the acquire semaphore at the
color-attachment-output stage, signaling renderCompleteSemaphores[currentFrame]
and waitFences[currentFrame], vkQueuePresentKHR waiting on the render-complete
semaphore (out-of-date or suboptimal triggers windowResize, other failures
throw), and finally currentFrame advances modulo the ring size. -/
def render (n : Nat) (s : RenderState) (acq : AcquireResult) (imageIndex : Nat)
    (pres : PresentResult) : RenderOutcome :=
  match fenceGet s.fences s.currentFrame with
  | FenceStatus.unsignaled => RenderOutcome.deadlock [Event.waitFence s.currentFrame]
  | _ =>
    let cf := s.currentFrame
    let s1 : RenderState := { s with fences := s.fences.set cf FenceStatus.unsignaled }
    let tr1 : List Event := [Event.waitFence cf, Event.resetFence cf, Event.acquireImage cf]
    match acq with
    | AcquireResult.errorOutOfDateKHR =>
      let rz := windowResizeModel n s1
      RenderOutcome.ok rz.1 (tr1 ++ rz.2)
    | AcquireResult.otherError => RenderOutcome.fatal (tr1 ++ [Event.fatalThrow])
    | _ =>
      let submitInfo : SubmitCall :=
        { commandBufferCount := 1
          commandBufferSlot := cf
          waitSemaphores := [{ arr := SemArray.presentComplete, slot := cf }]
          waitDstStageMask := [PipelineStageFlag.colorAttachmentOutput]
          signalSemaphores := [{ arr := SemArray.renderComplete, slot := cf }]
          fenceSlot := cf }
      let presentInfo : PresentCallInfo :=
        { waitSemaphores := [{ arr := SemArray.renderComplete, slot := cf }]
          imageIndex := imageIndex }
      let s2 : RenderState := { s1 with fences := s1.fences.set cf FenceStatus.pending }
      let tr2 : List Event := tr1 ++
        [Event.updateUniform cf, Event.resetCommandBuffer cf,
         Event.recordCommands cf imageIndex, Event.submit submitInfo,
         Event.presentCall presentInfo]
      match pres with
      | PresentResult.errorOutOfDateKHR =>
        let rz := windowResizeModel n s2
        RenderOutcome.ok { rz.1 with currentFrame := (cf + 1) % n } (tr2 ++ rz.2)
      | PresentResult.suboptimalKHR =>
        let rz := windowResizeModel n s2
        RenderOutcome.ok { rz.1 with currentFrame := (cf + 1) % n } (tr2 ++ rz.2)
      | PresentResult.otherError => RenderOutcome.fatal (tr2 ++ [Event.fatalThrow])
      | PresentResult.success =>
        RenderOutcome.ok { s2 with currentFrame := (cf + 1) % n } tr2

/-- Per-tick external inputs of the render loop: the window's iconic state and
the driver results render will observe. -/
structure TickInput where
  minimized : Bool
  acq : AcquireResult
  imageIndex : Nat
  pres : PresentResult
  deriving DecidableEq, Repr

/-- One iteration body of VulkanExampleBase::renderLoop
(vulkanexamplebase.cpp:197-199): nextFrame (hence render) runs only when
prepared and the window is not iconic; otherwise the tick does nothing. -/
def tick (n : Nat) (s : RenderState) (t : TickInput) : RenderOutcome :=
  if s.prepared ∧ t.minimized = false then render n s t.acq t.imageIndex t.pres
  else RenderOutcome.ok s []

/-- Result of running the message loop over a list of tick inputs: either the
loop finishes (quit message) or the process stops abnormally (uncaught throw,
or a fence wait that never returns). -/
inductive LoopResult where
  | finished (s : RenderState) (tr : List Event)
  | stopped (tr : List Event)
  deriving DecidableEq, Repr

/-- The trace of a loop result, however the loop ended. -/
def LoopResult.trace : LoopResult → List Event
  | LoopResult.finished _ tr => tr
  | LoopResult.stopped tr => tr

/-- The message loop of renderLoop driven by a finite input schedule. -/
def loopRun (n : Nat) : RenderState → List TickInput → LoopResult
  | s, [] => LoopResult.finished s []
  | s, t :: rest =>
    match tick n s t with
    | RenderOutcome.ok s1 tr =>
      match loopRun n s1 rest with
      | LoopResult.finished s2 tr2 => LoopResult.finished s2 (tr ++ tr2)
      | LoopResult.stopped tr2 => LoopResult.stopped (tr ++ tr2)
    | RenderOutcome.deadlock tr => LoopResult.stopped tr
    | RenderOutcome.fatal tr => LoopResult.stopped tr

/-- The resource releases of ~VulkanTriangle (triangle.cpp:14-33) followed by
~VulkanExampleBase (vulkanexamplebase.cpp:72-99), which run when main deletes
the example object after renderLoop returns. -/
def destructorTrace : List Event :=
  [Event.destroyResource ResourceKind.pipelineRes,
   Event.destroyResource ResourceKind.buffersRes,
   Event.destroyResource ResourceKind.swapchainRes,
   Event.destroyResource ResourceKind.renderPassRes,
   Event.destroyResource ResourceKind.framebuffersRes,
   Event.destroyResource ResourceKind.depthStencilRes,
   Event.destroyResource ResourceKind.semaphoresRes,
   Event.destroyResource ResourceKind.fencesRes]

/-- Whole-program trace from the render loop on: the loop body over the input
schedule; when the loop exits normally (WM_QUIT), renderLoop's final
vkDeviceWaitIdle (vulkanexamplebase.cpp:202-207) runs and then the destructors;
when the process stops on a throw or a hung wait, nothing further runs. -/
def programTrace (n : Nat) (s : RenderState) (inputs : List TickInput) : List Event :=
  match loopRun n s inputs with
  | LoopResult.finished _ tr => tr ++ [Event.deviceWaitIdle] ++ destructorTrace
  | LoopResult.stopped tr => tr

/-! ## Trace predicates and scanners -/

/-- Event is a fence wait on the given slot. -/
def isWaitFenceOn (sl : Nat) : Event → Bool
  | Event.waitFence s => s == sl
  | _ => false

/-- Event is a fence reset on the given slot. -/
def isResetFenceOn (sl : Nat) : Event → Bool
  | Event.resetFence s => s == sl
  | _ => false

/-- Event is a command-buffer reset on the given slot. -/
def isCmdResetOn (sl : Nat) : Event → Bool
  | Event.resetCommandBuffer s => s == sl
  | _ => false

/-- Event is a queue submission whose command buffer belongs to the given slot. -/
def isSubmitOn (sl : Nat) : Event → Bool
  | Event.submit c => c.commandBufferSlot == sl
  | _ => false

/-- Event is any queue submission. -/
def isSubmitEvt : Event → Bool
  | Event.submit _ => true
  | _ => false

/-- Event is any present call. -/
def isPresentEvt : Event → Bool
  | Event.presentCall _ => true
  | _ => false

/-- Event is a command re-record. -/
def isRecordEvt : Event → Bool
  | Event.recordCommands _ _ => true
  | _ => false

/-- Event is an image acquisition. -/
def isAcquireEvt : Event → Bool
  | Event.acquireImage _ => true
  | _ => false

/-- Event destroys a shared resource. -/
def isDestroyEvt : Event → Bool
  | Event.destroyResource _ => true
  | _ => false

/-- Event is a device-wide idle wait. -/
def isWaitIdleEvt : Event → Bool
  | Event.deviceWaitIdle => true
  | _ => false

/-- Armed scan over a trace.  arm events arm the monitor, clear events disarm
it, and a bad event while armed is a violation (none).  Returns the final
armed flag when no violation occurs. -/
def guardScan (arm clear bad : Event → Bool) : Bool → List Event → Option Bool
  | a, [] => some a
  | a, e :: rest =>
    if bad e && a then none
    else guardScan arm clear bad (if clear e then false else (a || arm e)) rest

/-- Checks that every q-event in the trace is strictly preceded by a p-event;
seen carries whether a p-event has already occurred. -/
def precededBy (p q : Event → Bool) : Bool → List Event → Bool
  | _, [] => true
  | seen, e :: rest => (if q e then seen else true) && precededBy p q (seen || p e) rest

/-- A concrete two-slot state with both fences signaled (the state right after
prepare() at startup), used to instantiate the temporal theorems. -/
def sampleReadyState : RenderState :=
  { currentFrame := 0
    fences := [FenceStatus.signaled, FenceStatus.signaled]
    prepared := true
    resized := false }

/-- The invariant the protocol maintains between render calls: the fence ring
has exactly one fence per slot, the current frame index is in range, the
application is prepared (renderLoop only calls render when prepared), and no
fence is left unsignaled without a pending submission. -/
def StateOK (n : Nat) (s : RenderState) : Prop :=
  s.fences.length = n ∧ s.currentFrame < n ∧ s.prepared = true ∧
    ∀ f ∈ s.fences, f ≠ FenceStatus.unsignaled

instance (n : Nat) (s : RenderState) : Decidable (StateOK n s) := by
  unfold StateOK; infer_instance

/-- A surface capability report with an undefined current extent (width equal
to (uint32_t)-1) and a minimum image extent of 100 by 100. -/
def cexSurfCaps : SurfaceCapabilitiesKHR :=
  { currentExtent := { width := UINT32_MAX, height := UINT32_MAX }
    minImageExtent := { width := 100, height := 100 }
    maxImageExtent := { width := 200, height := 200 }
    minImageCount := 2
    maxImageCount := 3 }

/-! ## Theorems -/

/-- Every list position of presentModeScan: scanning a mode list that contains
eMailbox selects eMailbox no matter the accumulator. -/
theorem presentModeScan_mailbox (ms : List PresentModeKHR) (cur : PresentModeKHR)
    (h : PresentModeKHR.eMailbox ∈ ms) :
    presentModeScan ms cur = PresentModeKHR.eMailbox := by
  induction ms generalizing cur with
  | nil => cases h
  | cons m rest ih =>
    rcases List.mem_cons.mp h with hm | hm
    · subst hm
      simp [presentModeScan]
    · by_cases hmb : m = PresentModeKHR.eMailbox
      · subst hmb; simp [presentModeScan]
      · by_cases him : m = PresentModeKHR.eImmediate
        · subst him; simp [presentModeScan, ih _ hm]
        · simp [presentModeScan, hmb, him, ih _ hm]

/-- Scanning a mode list without eMailbox and without eImmediate keeps the
accumulator. -/
theorem presentModeScan_other (ms : List PresentModeKHR) (cur : PresentModeKHR)
    (hnb : PresentModeKHR.eMailbox ∉ ms) (hni : PresentModeKHR.eImmediate ∉ ms) :
    presentModeScan ms cur = cur := by
  induction ms generalizing cur with
  | nil => rfl
  | cons m rest ih =>
    have hmb : m ≠ PresentModeKHR.eMailbox := fun hc => hnb (hc ▸ List.mem_cons_self m rest)
    have hmi : m ≠ PresentModeKHR.eImmediate := fun hc => hni (hc ▸ List.mem_cons_self m rest)
    have hnb' : PresentModeKHR.eMailbox ∉ rest := fun hc => hnb (List.mem_cons_of_mem m hc)
    have hni' : PresentModeKHR.eImmediate ∉ rest := fun hc => hni (List.mem_cons_of_mem m hc)
    simp [presentModeScan, hmb, hmi, ih _ hnb' hni']

/-- Scanning a mode list without eMailbox but with eImmediate selects
eImmediate no matter the accumulator. -/
theorem presentModeScan_immediate (ms : List PresentModeKHR) (cur : PresentModeKHR)
    (hnb : PresentModeKHR.eMailbox ∉ ms) (h : PresentModeKHR.eImmediate ∈ ms) :
    presentModeScan ms cur = PresentModeKHR.eImmediate := by
  induction ms generalizing cur with
  | nil => cases h
  | cons m rest ih =>
    have hmb : m ≠ PresentModeKHR.eMailbox := fun hc => hnb (hc ▸ List.mem_cons_self m rest)
    have hnb' : PresentModeKHR.eMailbox ∉ rest := fun hc => hnb (List.mem_cons_of_mem m hc)
    rcases List.mem_cons.mp h with hm | hm
    · subst hm
      by_cases hr : PresentModeKHR.eImmediate ∈ rest
      · simp [presentModeScan, ih _ hnb' hr]
      · simp only [presentModeScan, if_neg hmb, if_pos rfl]
        exact presentModeScan_other rest _ hnb' hr
    · by_cases him : m = PresentModeKHR.eImmediate
      · subst him; simp [presentModeScan, ih _ hnb' hm]
      · simp [presentModeScan, hmb, him, ih _ hnb' hm]

/-- C5: swapchain creation selects present mode FIFO whenever vsync is
enabled, regardless of the advertised modes; with vsync disabled it selects
mailbox when advertised, otherwise immediate when advertised, otherwise FIFO. -/
theorem C5_present_mode_selection (vsync : Bool) (surfCaps : SurfaceCapabilitiesKHR)
    (ms : List PresentModeKHR) (w h : Nat) :
    (swapchainCreate surfCaps ms w h vsync).presentMode =
      if vsync then PresentModeKHR.eFifo
      else if PresentModeKHR.eMailbox ∈ ms then PresentModeKHR.eMailbox
      else if PresentModeKHR.eImmediate ∈ ms then PresentModeKHR.eImmediate
      else PresentModeKHR.eFifo := by
  show choosePresentMode vsync ms = _
  cases vsync with
  | true => simp [choosePresentMode]
  | false =>
    simp only [choosePresentMode, Bool.false_eq_true, if_false, if_neg]
    by_cases hm : PresentModeKHR.eMailbox ∈ ms
    · simp [hm, presentModeScan_mailbox ms _ hm]
    · by_cases hi : PresentModeKHR.eImmediate ∈ ms
      · simp [hm, hi, presentModeScan_immediate ms _ hm hi]
      · simp [hm, hi, presentModeScan_other ms _ hm hi]

/-- C6: the requested image count is minImageCount + 1 clamped to a non-zero
maxImageCount, i.e. min (minImageCount + 1) maxImageCount when the maximum is
positive, and minImageCount + 1 when the maximum is zero (unlimited).  The
hypothesis keeps minImageCount + 1 inside uint32 range, where the source's
machine addition agrees with the mathematical one. -/
theorem C6_image_count (surfCaps : SurfaceCapabilitiesKHR)
    (ms : List PresentModeKHR) (w h : Nat) (vsync : Bool)
    (hmin : surfCaps.minImageCount + 1 < UINT32_MAX + 1) :
    (swapchainCreate surfCaps ms w h vsync).minImageCount =
      if 0 < surfCaps.maxImageCount then
        min (surfCaps.minImageCount + 1) surfCaps.maxImageCount
      else surfCaps.minImageCount + 1 := by
  show desiredNumberOfSwapchainImages surfCaps = _
  unfold desiredNumberOfSwapchainImages
  rw [Nat.mod_eq_of_lt hmin]
  split_ifs with h1 h2 h2 <;> omega

/-- Witness for C6 at a concrete capability report: minImageCount 2 and
maxImageCount 3 yield a request of 3 images. -/
theorem C6_image_count_witness :
    cexSurfCaps.minImageCount + 1 < UINT32_MAX + 1 ∧
      (swapchainCreate cexSurfCaps [] 1280 720 true).minImageCount =
        if 0 < cexSurfCaps.maxImageCount then
          min (cexSurfCaps.minImageCount + 1) cexSurfCaps.maxImageCount
        else cexSurfCaps.minImageCount + 1 :=
  ⟨by decide, C6_image_count cexSurfCaps [] 1280 720 true (by decide)⟩

/-- C7 counterexample: the claim says swapchain creation clamps the requested
extent into the surface's min/max range for every requested extent and every
capability report.  With an undefined current extent and minImageExtent
100 by 100, a requested 10 by 10 extent is used unchanged: the result lies
below the minimum and differs from the clamped extent the spec describes. -/
theorem C7_counterexample :
    (swapchainCreate cexSurfCaps [PresentModeKHR.eFifo] 10 10 true).imageExtent ≠
        clampedExtentSpec cexSurfCaps 10 10 ∧
      (swapchainCreate cexSurfCaps [PresentModeKHR.eFifo] 10 10 true).imageExtent.width <
        cexSurfCaps.minImageExtent.width := by
  constructor
  · decide
  · decide

/-- C7 amended: swapchain creation performs no min/max clamping.  When the
surface reports an undefined current extent (width 0xFFFFFFFF) the requested
width and height are used unchanged; otherwise the surface's current extent is
used and the requested width/height are overwritten with it. -/
theorem C7_extent_selection (surfCaps : SurfaceCapabilitiesKHR)
    (ms : List PresentModeKHR) (w h : Nat) (vsync : Bool) :
    (swapchainCreate surfCaps ms w h vsync).imageExtent =
        (if surfCaps.currentExtent.width = UINT32_MAX then Extent2D.mk w h
         else surfCaps.currentExtent) ∧
      (surfCaps.currentExtent.width ≠ UINT32_MAX →
        (swapchainCreate surfCaps ms w h vsync).newWidth = surfCaps.currentExtent.width ∧
          (swapchainCreate surfCaps ms w h vsync).newHeight = surfCaps.currentExtent.height) := by
  refine ⟨?_, fun hne => ⟨?_, ?_⟩⟩
  · show chooseSwapchainExtent surfCaps w h = _
    unfold chooseSwapchainExtent
    split <;> rfl
  · show (if surfCaps.currentExtent.width = UINT32_MAX then w
      else surfCaps.currentExtent.width) = _
    simp [hne]
  · show (if surfCaps.currentExtent.width = UINT32_MAX then h
      else surfCaps.currentExtent.height) = _
    simp [hne]

/-- Witness for C7's amended statement at a defined current extent of
1920 by 1080 with requested 10 by 10. -/
theorem C7_extent_selection_witness :
    (swapchainCreate
        { currentExtent := { width := 1920, height := 1080 }
          minImageExtent := { width := 1, height := 1 }
          maxImageExtent := { width := 4096, height := 4096 }
          minImageCount := 2, maxImageCount := 0 } [] 10 10 false).imageExtent =
        Extent2D.mk 1920 1080 ∧
      (swapchainCreate
        { currentExtent := { width := 1920, height := 1080 }
          minImageExtent := { width := 1, height := 1 }
          maxImageExtent := { width := 4096, height := 4096 }
          minImageCount := 2, maxImageCount := 0 } [] 10 10 false).newWidth = 1920 := by
  have h := C7_extent_selection
    { currentExtent := { width := 1920, height := 1080 }
      minImageExtent := { width := 1, height := 1 }
      maxImageExtent := { width := 4096, height := 4096 }
      minImageCount := 2, maxImageCount := 0 } [] 10 10 false
  exact ⟨by simpa using h.1, (h.2 (by decide)).1⟩

/-- If some queue family supports both graphics and presentation, the first
pass of initSurface picks one index for both roles. -/
theorem initSurfaceFirstPass_both (qs : List QueueFamilyProps) (n : Nat)
    (g : Option Nat)
    (h : ∃ q ∈ qs, q.graphics = true ∧ q.supportsPresent = true) :
    ∃ i, initSurfaceFirstPass qs n g = (some i, some i) := by
  induction qs generalizing n g with
  | nil => rcases h with ⟨q, hq, _⟩; cases hq
  | cons q rest ih =>
    by_cases hg : q.graphics = true
    · by_cases hp : q.supportsPresent = true
      · exact ⟨n, by simp [initSurfaceFirstPass, hg, hp]⟩
      · rcases h with ⟨q', hq', hb⟩
        rcases List.mem_cons.mp hq' with rfl | hmem
        · exact absurd hb.2 hp
        · rcases ih (n + 1) (if g = none then some n else g) ⟨q', hmem, hb⟩ with ⟨i, hi⟩
          exact ⟨i, by simp [initSurfaceFirstPass, hg, hp, hi]⟩
    · rcases h with ⟨q', hq', hb⟩
      rcases List.mem_cons.mp hq' with rfl | hmem
      · exact absurd hb.1 hg
      · rcases ih (n + 1) g ⟨q', hmem, hb⟩ with ⟨i, hi⟩
        exact ⟨i, by simp [initSurfaceFirstPass, hg, hi]⟩

/-- If no queue family supports both graphics and presentation, the first pass
never finds a present queue. -/
theorem initSurfaceFirstPass_snd_none (qs : List QueueFamilyProps) (n : Nat)
    (g : Option Nat)
    (h : ∀ q ∈ qs, ¬(q.graphics = true ∧ q.supportsPresent = true)) :
    (initSurfaceFirstPass qs n g).2 = none := by
  induction qs generalizing n g with
  | nil => rfl
  | cons q rest ih =>
    have hrest : ∀ q' ∈ rest, ¬(q'.graphics = true ∧ q'.supportsPresent = true) :=
      fun q' hm => h q' (List.mem_cons_of_mem q hm)
    by_cases hg : q.graphics = true
    · have hp : ¬ q.supportsPresent = true := fun hp =>
        h q (List.mem_cons_self q rest) ⟨hg, hp⟩
      simp [initSurfaceFirstPass, hg, hp, ih (n + 1) _ hrest]
    · simp [initSurfaceFirstPass, hg, ih (n + 1) g hrest]

/-- A graphics index produced by the first pass either came in through the
accumulator or points at a graphics-capable family. -/
theorem initSurfaceFirstPass_fst_graphics (qs : List QueueFamilyProps) (n : Nat)
    (g : Option Nat) (i : Nat)
    (h : (initSurfaceFirstPass qs n g).1 = some i) :
    g = some i ∨ ∃ k q, qs.get? k = some q ∧ q.graphics = true ∧ i = n + k := by
  induction qs generalizing n g with
  | nil => exact Or.inl h
  | cons q rest ih =>
    by_cases hg : q.graphics = true
    · by_cases hp : q.supportsPresent = true
      · simp [initSurfaceFirstPass, hg, hp] at h
        exact Or.inr ⟨0, q, rfl, hg, by omega⟩
      · simp only [initSurfaceFirstPass, hg, if_true, hp, if_false] at h
        rcases ih (n + 1) (if g = none then some n else g) h with hacc | ⟨k, q', hk, hgr, hik⟩
        · by_cases hgn : g = none
          · rw [hgn] at hacc
            simp only [if_pos rfl] at hacc
            exact Or.inr ⟨0, q, rfl, hg, by
              have : n = i := Option.some.inj hacc
              omega⟩
          · rw [if_neg hgn] at hacc
            exact Or.inl hacc
        · exact Or.inr ⟨k + 1, q', by simpa using hk, hgr, by omega⟩
    · simp only [initSurfaceFirstPass, hg, if_false] at h
      rcases ih (n + 1) g h with hacc | ⟨k, q', hk, hgr, hik⟩
      · exact Or.inl hacc
      · exact Or.inr ⟨k + 1, q', by simpa using hk, hgr, by omega⟩

/-- A present index produced by the second pass points at a present-capable
family. -/
theorem initSurfaceSecondPass_supports (qs : List QueueFamilyProps) (n : Nat)
    (i : Nat) (h : initSurfaceSecondPass qs n = some i) :
    ∃ k q, qs.get? k = some q ∧ q.supportsPresent = true ∧ i = n + k := by
  induction qs generalizing n with
  | nil => cases h
  | cons q rest ih =>
    by_cases hp : q.supportsPresent = true
    · simp only [initSurfaceSecondPass, hp, if_true, Option.some.injEq] at h
      exact ⟨0, q, rfl, hp, by omega⟩
    · simp only [initSurfaceSecondPass, hp, if_false] at h
      rcases ih (n + 1) h with ⟨k, q', hk, hpr, hik⟩
      exact ⟨k + 1, q', by simpa using hk, hpr, by omega⟩

/-- C10: surface initialization requires a single queue family supporting both
graphics and presentation.  initSurface exits fatally (modelled as
Except.error, so swapchain creation is never reached) exactly when no queue
family supports both — which covers the three failure conditions: no graphics
family, no presenting family, or distinct selected families. -/
theorem C10_single_queue_family (queueProps : List QueueFamilyProps)
    (surfCaps : SurfaceCapabilitiesKHR) (ms : List PresentModeKHR)
    (w h : Nat) (vsync : Bool) :
    (∃ e, prepareSurfaceAndSwapchain queueProps surfCaps ms w h vsync =
        Except.error e) ↔
      ¬ ∃ q ∈ queueProps, q.graphics = true ∧ q.supportsPresent = true := by
  constructor
  · rintro ⟨e, he⟩ hboth
    rcases initSurfaceFirstPass_both queueProps 0 none hboth with ⟨i, hi⟩
    simp [prepareSurfaceAndSwapchain, initSurfaceSelect, hi] at he
  · intro hnot
    have hforall : ∀ q ∈ queueProps, ¬(q.graphics = true ∧ q.supportsPresent = true) :=
      fun q hm hb => hnot ⟨q, hm, hb⟩
    have h2 : (initSurfaceFirstPass queueProps 0 none).2 = none :=
      initSurfaceFirstPass_snd_none queueProps 0 none hforall
    cases hfst : (initSurfaceFirstPass queueProps 0 none).1 with
    | none =>
      exact ⟨"Could not find a graphics and/or presenting queue!",
        by simp [prepareSurfaceAndSwapchain, initSurfaceSelect, hfst, h2]⟩
    | some gi =>
      cases hsp : initSurfaceSecondPass queueProps 0 with
      | none =>
        exact ⟨"Could not find a graphics and/or presenting queue!",
          by simp [prepareSurfaceAndSwapchain, initSurfaceSelect, hfst, h2, hsp]⟩
      | some pi =>
        have hne : gi ≠ pi := by
          intro heq
          rcases initSurfaceFirstPass_fst_graphics queueProps 0 none gi hfst with
            hacc | ⟨k, q, hk, hgr, hik⟩
          · cases hacc
          · rcases initSurfaceSecondPass_supports queueProps 0 pi hsp with
              ⟨k', q', hk', hpr, hik'⟩
            have hkk : k = k' := by omega
            subst hkk
            have hqq : q = q' := by
              rw [hk] at hk'
              exact Option.some.inj hk'
            exact hnot ⟨q, List.get?_mem hk, hgr, hqq ▸ hpr⟩
        exact ⟨"Separate graphics and presenting queues are not supported yet!",
          by simp [prepareSurfaceAndSwapchain, initSurfaceSelect, hfst, h2, hsp, hne]⟩

/-- guardScan distributes over concatenated traces. -/
theorem guardScan_append (arm clear bad : Event → Bool) (a : Bool)
    (t1 t2 : List Event) :
    guardScan arm clear bad a (t1 ++ t2) =
      (guardScan arm clear bad a t1).bind
        (fun a2 => guardScan arm clear bad a2 t2) := by
  induction t1 generalizing a with
  | nil => rfl
  | cons e rest ih =>
    by_cases hb : (bad e && a) = true
    · simp [guardScan, hb]
    · simp [guardScan, hb, ih]

/-- A trace without bad events never trips the armed scan. -/
theorem guardScan_isSome_of_no_bad (arm clear bad : Event → Bool)
    (l : List Event) (h : ∀ e ∈ l, bad e = false) (a : Bool) :
    (guardScan arm clear bad a l).isSome = true := by
  induction l generalizing a with
  | nil => rfl
  | cons e rest ih =>
    have hbe : bad e = false := h e (List.mem_cons_self e rest)
    have hrest : ∀ e' ∈ rest, bad e' = false :=
      fun e' hm => h e' (List.mem_cons_of_mem e hm)
    simp [guardScan, hbe, ih hrest]

/-- One render call never resets a slot's command buffer without an
intervening fence wait on that slot, from any armed state: the scan over a
single render trace always completes. -/
theorem renderTrace_scanC1_isSome (n : Nat) (s : RenderState)
    (acq : AcquireResult) (idx : Nat) (pres : PresentResult) (sl : Nat) (a : Bool) :
    (guardScan (isSubmitOn sl) (isWaitFenceOn sl) (isCmdResetOn sl) a
        ((render n s acq idx pres).trace)).isSome = true := by
  unfold render
  cases hf : fenceGet s.fences s.currentFrame <;>
    [skip; (simp [RenderOutcome.trace, guardScan, isSubmitOn, isWaitFenceOn, isCmdResetOn]); skip] <;>
  cases acq <;>
  cases pres <;>
  by_cases hsl : s.currentFrame = sl <;>
  by_cases hprep : s.prepared = true <;>
  simp [RenderOutcome.trace, windowResizeModel, guardScan, isSubmitOn,
    isWaitFenceOn, isCmdResetOn, hsl, hprep]

/-- A single loop tick also passes the slot-reuse scan from any armed state. -/
theorem tickTrace_scanC1_isSome (n : Nat) (s : RenderState) (t : TickInput)
    (sl : Nat) (a : Bool) :
    (guardScan (isSubmitOn sl) (isWaitFenceOn sl) (isCmdResetOn sl) a
        ((tick n s t).trace)).isSome = true := by
  unfold tick
  split
  · exact renderTrace_scanC1_isSome n s t.acq t.imageIndex t.pres sl a
  · rfl

/-- The whole message loop passes the slot-reuse scan from any armed state. -/
theorem loopTrace_scanC1_isSome (n : Nat) (sl : Nat) (inputs : List TickInput) :
    ∀ (s : RenderState) (a : Bool),
    (guardScan (isSubmitOn sl) (isWaitFenceOn sl) (isCmdResetOn sl) a
        (loopRun n s inputs).trace).isSome = true := by
  induction inputs with
  | nil => intro s a; rfl
  | cons t rest ih =>
    intro s a
    have htick := tickTrace_scanC1_isSome n s t sl a
    simp only [loopRun]
    cases hr : tick n s t with
    | ok s1 tr =>
      rw [hr] at htick
      simp only [RenderOutcome.trace] at htick
      obtain ⟨a2, ha2⟩ := Option.isSome_iff_exists.mp htick
      dsimp only
      cases hl : loopRun n s1 rest with
      | finished s2 tr2 =>
        have h2 := ih s1 a2
        rw [hl] at h2
        simp only [LoopResult.trace] at h2 ⊢
        rw [guardScan_append, ha2]
        simpa using h2
      | stopped tr2 =>
        have h2 := ih s1 a2
        rw [hl] at h2
        simp only [LoopResult.trace] at h2 ⊢
        rw [guardScan_append, ha2]
        simpa using h2
    | deadlock tr =>
      rw [hr] at htick
      simpa [LoopResult.trace, RenderOutcome.trace] using htick
    | fatal tr =>
      rw [hr] at htick
      simpa [LoopResult.trace, RenderOutcome.trace] using htick

/-- The whole program trace passes the slot-reuse scan. -/
theorem programTrace_scanC1_isSome (n : Nat) (s : RenderState)
    (inputs : List TickInput) (sl : Nat) :
    (guardScan (isSubmitOn sl) (isWaitFenceOn sl) (isCmdResetOn sl) false
        (programTrace n s inputs)).isSome = true := by
  have hloop := loopTrace_scanC1_isSome n sl inputs s false
  unfold programTrace
  cases hl : loopRun n s inputs with
  | finished s2 tr =>
    rw [hl] at hloop
    simp only [LoopResult.trace] at hloop
    obtain ⟨a2, ha2⟩ := Option.isSome_iff_exists.mp hloop
    dsimp only
    rw [List.append_assoc, guardScan_append, ha2]
    have htail : ∀ e ∈ ([Event.deviceWaitIdle] ++ destructorTrace),
        isCmdResetOn sl e = false := by
      intro e he
      simp [destructorTrace] at he
      rcases he with rfl | h | h | h | h | h | h | h | h <;> subst_vars <;> rfl
    simpa using guardScan_isSome_of_no_bad _ _ _ _ htail a2
  | stopped tr =>
    rw [hl] at hloop
    dsimp only
    simpa [LoopResult.trace] using hloop

/-- Within one render call, the fence wait on the current slot precedes the
fence reset, and the fence reset precedes the command-buffer reset. -/
theorem renderTrace_wait_then_reset (n : Nat) (s : RenderState)
    (acq : AcquireResult) (idx : Nat) (pres : PresentResult) (sl : Nat) :
    precededBy (isWaitFenceOn sl) (isResetFenceOn sl) false
        ((render n s acq idx pres).trace) = true ∧
      precededBy (isResetFenceOn sl) (isCmdResetOn sl) false
        ((render n s acq idx pres).trace) = true := by
  unfold render
  cases hf : fenceGet s.fences s.currentFrame <;>
    [skip;
     (simp [RenderOutcome.trace, precededBy, isWaitFenceOn, isResetFenceOn, isCmdResetOn]);
     skip] <;>
  cases acq <;>
  cases pres <;>
  by_cases hsl : s.currentFrame = sl <;>
  by_cases hprep : s.prepared = true <;>
  simp [RenderOutcome.trace, windowResizeModel, precededBy, isWaitFenceOn,
    isResetFenceOn, isCmdResetOn, hsl, hprep]

/-- C1: before a frame slot's command buffer is reset and re-recorded,
render() has first waited on that slot's completion fence and then reset it
(the wait event occurs in the model only when the fence is signaled, or is
pending and resolves by GPU completion); and across the whole run, once a
command buffer is submitted on a slot, that slot's command buffer is not reset
again (the k+N reuse) before a fence wait on that slot has returned — the
armed scan over every program trace finds no violation. -/
theorem C1_fence_before_reuse (n : Nat) (s : RenderState) (sl : Nat) :
    (∀ (acq : AcquireResult) (idx : Nat) (pres : PresentResult),
      precededBy (isWaitFenceOn sl) (isResetFenceOn sl) false
          ((render n s acq idx pres).trace) = true ∧
        precededBy (isResetFenceOn sl) (isCmdResetOn sl) false
          ((render n s acq idx pres).trace) = true) ∧
    (∀ inputs : List TickInput,
      (guardScan (isSubmitOn sl) (isWaitFenceOn sl) (isCmdResetOn sl) false
          (programTrace n s inputs)).isSome = true) :=
  ⟨fun acq idx pres => renderTrace_wait_then_reset n s acq idx pres sl,
   fun inputs => programTrace_scanC1_isSome n s inputs sl⟩

/-- One render call never destroys a shared resource while submitted work may
still be in flight: every destroy it performs (all inside windowResize) comes
after windowResize's leading vkDeviceWaitIdle. -/
theorem renderTrace_scanC4_isSome (n : Nat) (s : RenderState)
    (acq : AcquireResult) (idx : Nat) (pres : PresentResult) (a : Bool) :
    (guardScan isSubmitEvt isWaitIdleEvt isDestroyEvt a
        ((render n s acq idx pres).trace)).isSome = true := by
  unfold render
  cases hf : fenceGet s.fences s.currentFrame <;>
    [skip;
     (simp [RenderOutcome.trace, guardScan, isSubmitEvt, isWaitIdleEvt, isDestroyEvt]);
     skip] <;>
  cases acq <;>
  cases pres <;>
  by_cases hprep : s.prepared = true <;>
  simp [RenderOutcome.trace, windowResizeModel, guardScan, isSubmitEvt,
    isWaitIdleEvt, isDestroyEvt, hprep]

/-- A single loop tick passes the idle-before-destroy scan. -/
theorem tickTrace_scanC4_isSome (n : Nat) (s : RenderState) (t : TickInput)
    (a : Bool) :
    (guardScan isSubmitEvt isWaitIdleEvt isDestroyEvt a
        ((tick n s t).trace)).isSome = true := by
  unfold tick
  split
  · exact renderTrace_scanC4_isSome n s t.acq t.imageIndex t.pres a
  · rfl

/-- The whole message loop passes the idle-before-destroy scan. -/
theorem loopTrace_scanC4_isSome (n : Nat) (inputs : List TickInput) :
    ∀ (s : RenderState) (a : Bool),
    (guardScan isSubmitEvt isWaitIdleEvt isDestroyEvt a
        (loopRun n s inputs).trace).isSome = true := by
  induction inputs with
  | nil => intro s a; rfl
  | cons t rest ih =>
    intro s a
    have htick := tickTrace_scanC4_isSome n s t a
    simp only [loopRun]
    cases hr : tick n s t with
    | ok s1 tr =>
      rw [hr] at htick
      simp only [RenderOutcome.trace] at htick
      obtain ⟨a2, ha2⟩ := Option.isSome_iff_exists.mp htick
      dsimp only
      cases hl : loopRun n s1 rest with
      | finished s2 tr2 =>
        have h2 := ih s1 a2
        rw [hl] at h2
        simp only [LoopResult.trace] at h2 ⊢
        rw [guardScan_append, ha2]
        simpa using h2
      | stopped tr2 =>
        have h2 := ih s1 a2
        rw [hl] at h2
        simp only [LoopResult.trace] at h2 ⊢
        rw [guardScan_append, ha2]
        simpa using h2
    | deadlock tr =>
      rw [hr] at htick
      simpa [LoopResult.trace, RenderOutcome.trace] using htick
    | fatal tr =>
      rw [hr] at htick
      simpa [LoopResult.trace, RenderOutcome.trace] using htick

/-- C4: on every reconfiguration (windowResize inside the loop) and on
shutdown (renderLoop's final wait plus the destructors), every destruction of
a shared resource in the program trace is preceded, since the last queue
submission, by a vkDeviceWaitIdle: the armed scan that arms on submissions,
disarms on device-idle waits and flags destructions while armed never finds a
violation. -/
theorem C4_wait_idle_before_destroy (n : Nat) (s : RenderState)
    (inputs : List TickInput) :
    (guardScan isSubmitEvt isWaitIdleEvt isDestroyEvt false
        (programTrace n s inputs)).isSome = true := by
  have hloop := loopTrace_scanC4_isSome n inputs s false
  unfold programTrace
  cases hl : loopRun n s inputs with
  | finished s2 tr =>
    rw [hl] at hloop
    simp only [LoopResult.trace] at hloop
    obtain ⟨a2, ha2⟩ := Option.isSome_iff_exists.mp hloop
    dsimp only
    rw [List.append_assoc, guardScan_append, ha2]
    have htail : ∀ b : Bool,
        (guardScan isSubmitEvt isWaitIdleEvt isDestroyEvt b
          ([Event.deviceWaitIdle] ++ destructorTrace)).isSome = true := by
      decide
    simpa using htail a2
  | stopped tr =>
    rw [hl] at hloop
    dsimp only
    simpa [LoopResult.trace] using hloop

/-- C2: when acquisition reports an out-of-date swapchain, render aborts the
frame — it triggers the reconfigure cycle (windowResize, hence swapchain
recreation when prepared) and returns with no submit, no present and no
command recording, without advancing the frame index; and on every completed
render call the frame index advances exactly once modulo the ring size per
submission made, and not at all when no submission was made. -/
theorem C2_stale_acquire_aborts_frame (n : Nat) (s : RenderState)
    (acq : AcquireResult) (idx : Nat) (pres : PresentResult)
    (s' : RenderState) (tr : List Event)
    (hok : render n s acq idx pres = RenderOutcome.ok s' tr) :
    (acq = AcquireResult.errorOutOfDateKHR →
        s'.currentFrame = s.currentFrame ∧
        tr.countP isSubmitEvt = 0 ∧
        tr.countP isPresentEvt = 0 ∧
        tr.countP isRecordEvt = 0 ∧
        (s.prepared = true → Event.createSwapchainEvt ∈ tr)) ∧
      tr.countP isSubmitEvt ≤ 1 ∧
      (tr.countP isSubmitEvt = 1 → s'.currentFrame = (s.currentFrame + 1) % n) ∧
      (tr.countP isSubmitEvt = 0 → s'.currentFrame = s.currentFrame) := by
  unfold render at hok
  cases hf : fenceGet s.fences s.currentFrame <;> rw [hf] at hok <;>
    [skip; (exact absurd hok (fun hc => RenderOutcome.noConfusion hc)); skip] <;>
  cases acq <;>
  cases pres <;>
  by_cases hprep : s.prepared = true <;>
  simp only [windowResizeModel, hprep, if_true, if_false, Bool.not_eq_true] at hok <;>
  first
  | (exact absurd hok (fun hc => RenderOutcome.noConfusion hc))
  | (rw [RenderOutcome.ok.injEq] at hok
     obtain ⟨hs, ht⟩ := hok
     subst hs
     subst ht
     simp [List.countP_cons, List.countP_nil, isSubmitEvt, isPresentEvt,
       isRecordEvt, hprep])

/-- Witness for C2: a two-slot ring in the post-prepare state, acquisition
reporting out-of-date.  The frame aborts with no submission, the swapchain is
reconfigured, and the frame index stays 0. -/
theorem C2_stale_acquire_aborts_frame_witness :
    ∃ s' tr,
      render 2 sampleReadyState AcquireResult.errorOutOfDateKHR 0 PresentResult.success =
          RenderOutcome.ok s' tr ∧
        s'.currentFrame = sampleReadyState.currentFrame ∧
        tr.countP isSubmitEvt = 0 ∧ Event.createSwapchainEvt ∈ tr := by
  obtain ⟨s', tr, hok⟩ :
      ∃ s' tr, render 2 sampleReadyState AcquireResult.errorOutOfDateKHR 0
        PresentResult.success = RenderOutcome.ok s' tr := ⟨_, _, rfl⟩
  have h := C2_stale_acquire_aborts_frame 2 sampleReadyState
    AcquireResult.errorOutOfDateKHR 0 PresentResult.success s' tr hok
  exact ⟨s', tr, hok, (h.1 rfl).1, (h.1 rfl).2.1, (h.1 rfl).2.2.2.2 rfl⟩

/-- C3: whenever a render call submits at all, it makes exactly one submission
and one present call; the submission carries exactly one command buffer (the
current slot's), waits only on the current slot's acquire semaphore
(presentCompleteSemaphores[currentFrame]) with the wait-stage mask containing
exactly the color-attachment-output stage, signals the current slot's
render-done semaphore (renderCompleteSemaphores[currentFrame]) and names the
current slot's fence; and the present call waits on that same render-done
semaphore and presents the acquired image index. -/
theorem C3_submit_present_wiring (n : Nat) (s : RenderState)
    (acq : AcquireResult) (idx : Nat) (pres : PresentResult)
    (hsub : ((render n s acq idx pres).trace).countP isSubmitEvt ≠ 0) :
    ((render n s acq idx pres).trace).countP isSubmitEvt = 1 ∧
      ((render n s acq idx pres).trace).countP isPresentEvt = 1 ∧
      (∀ c, Event.submit c ∈ (render n s acq idx pres).trace →
        c.commandBufferCount = 1 ∧
          c.commandBufferSlot = s.currentFrame ∧
          c.waitSemaphores = [{ arr := SemArray.presentComplete, slot := s.currentFrame }] ∧
          c.waitDstStageMask = [PipelineStageFlag.colorAttachmentOutput] ∧
          c.signalSemaphores = [{ arr := SemArray.renderComplete, slot := s.currentFrame }] ∧
          c.fenceSlot = s.currentFrame) ∧
      (∀ p, Event.presentCall p ∈ (render n s acq idx pres).trace →
        p.waitSemaphores = [{ arr := SemArray.renderComplete, slot := s.currentFrame }] ∧
          p.imageIndex = idx) := by
  unfold render at hsub ⊢
  cases hf : fenceGet s.fences s.currentFrame <;>
    [skip;
     (simp [RenderOutcome.trace, List.countP_cons, List.countP_nil, isSubmitEvt] at hsub);
     skip] <;>
  cases acq <;>
  cases pres <;>
  by_cases hprep : s.prepared = true <;>
  simp_all [RenderOutcome.trace, windowResizeModel, List.countP_cons,
    List.countP_nil, isSubmitEvt, isPresentEvt]

/-- Witness for C3: a successful two-slot frame at slot 0 with image index 1
submits exactly once with the wired semaphores, stage mask and fence. -/
theorem C3_submit_present_wiring_witness :
    ((render 2 sampleReadyState AcquireResult.success 1 PresentResult.success).trace).countP
        isSubmitEvt = 1 ∧
      (∀ c, Event.submit c ∈
          (render 2 sampleReadyState AcquireResult.success 1 PresentResult.success).trace →
        c.waitDstStageMask = [PipelineStageFlag.colorAttachmentOutput]) := by
  have h := C3_submit_present_wiring 2 sampleReadyState AcquireResult.success 1
    PresentResult.success (by decide)
  exact ⟨h.1, fun c hc => ((h.2.2.1 c hc).2.2.2.1)⟩

/-- C8: while the window is minimized or the application is not prepared, a
render-loop tick performs no work at all — in particular no acquire, submit or
present — and leaves the state unchanged; rendering happens exactly when the
application is prepared and the window is not minimized, in which case the
tick is precisely a render call. -/
theorem C8_minimized_skips_frame (n : Nat) (s : RenderState) (t : TickInput) :
    ((t.minimized = true ∨ s.prepared = false) →
        tick n s t = RenderOutcome.ok s [] ∧
          ((tick n s t).trace).countP isAcquireEvt = 0 ∧
          ((tick n s t).trace).countP isSubmitEvt = 0 ∧
          ((tick n s t).trace).countP isPresentEvt = 0) ∧
      (s.prepared = true → t.minimized = false →
        tick n s t = render n s t.acq t.imageIndex t.pres) := by
  constructor
  · rintro (hm | hp)
    · have hcond : ¬(s.prepared = true ∧ t.minimized = false) := by simp [hm]
      simp [tick, hcond, RenderOutcome.trace]
    · have hcond : ¬(s.prepared = true ∧ t.minimized = false) := by simp [hp]
      simp [tick, hcond, RenderOutcome.trace]
  · intro hp hm
    simp [tick, hp, hm]

/-- Witness for C8: a minimized tick on the post-prepare state does nothing;
a non-minimized tick is a render call. -/
theorem C8_minimized_skips_frame_witness :
    tick 2 sampleReadyState
        { minimized := true, acq := AcquireResult.success, imageIndex := 0,
          pres := PresentResult.success } =
        RenderOutcome.ok sampleReadyState [] ∧
      tick 2 sampleReadyState
          { minimized := false, acq := AcquireResult.success, imageIndex := 0,
            pres := PresentResult.success } =
        render 2 sampleReadyState AcquireResult.success 0 PresentResult.success := by
  constructor
  · exact ((C8_minimized_skips_frame 2 sampleReadyState _).1 (Or.inl rfl)).1
  · exact (C8_minimized_skips_frame 2 sampleReadyState _).2 rfl rfl

/-- Every fence created by createSynchronizationPrimitives is signaled. -/
theorem createSyncPrims_all_signaled (n : Nat) :
    ∀ f ∈ createSynchronizationPrimitives n, f = FenceStatus.signaled := by
  intro f hf
  simp only [createSynchronizationPrimitives, createFence, if_pos, List.mem_map] at hf
  obtain ⟨x, _, hx⟩ := hf
  simpa using hx.symm

/-- createSynchronizationPrimitives builds one fence per frame slot. -/
theorem createSyncPrims_length (n : Nat) :
    (createSynchronizationPrimitives n).length = n := by
  simp [createSynchronizationPrimitives]

/-- Fences of a state satisfying the between-frames invariant are never
unsignaled, in particular not the current slot's. -/
theorem fenceGet_ne_unsignaled (n : Nat) (s : RenderState) (hOK : StateOK n s) :
    fenceGet s.fences s.currentFrame ≠ FenceStatus.unsignaled := by
  obtain ⟨hlen, hcf, _, hfe⟩ := hOK
  have hlt : s.currentFrame < s.fences.length := by omega
  rw [fenceGet, List.getD_eq_getElem _ _ hlt]
  exact hfe _ (List.getElem_mem hlt)

/-- The reconfigured state windowResize produces from a prepared state
satisfies the invariant again (for any current frame index below the ring
size). -/
theorem stateOK_after_resize (n : Nat) (cf : Nat) (hcf : cf < n) (rz : Bool) :
    StateOK n
      { currentFrame := cf, fences := createSynchronizationPrimitives n,
        prepared := true, resized := rz } := by
  refine ⟨createSyncPrims_length n, hcf, rfl, ?_⟩
  intro f hf
  rw [createSyncPrims_all_signaled n f hf]
  simp

/-- Marking the current slot's fence pending after a submission preserves the
invariant, with the frame index advanced modulo the ring size. -/
theorem stateOK_after_submit (n : Nat) (s : RenderState) (hOK : StateOK n s)
    (rz : Bool) :
    StateOK n
      { currentFrame := (s.currentFrame + 1) % n,
        fences := (s.fences.set s.currentFrame FenceStatus.unsignaled).set
          s.currentFrame FenceStatus.pending,
        prepared := true, resized := rz } := by
  obtain ⟨hlen, hcf, hprep, hfe⟩ := hOK
  have hn : 0 < n := by omega
  refine ⟨by simpa using hlen, Nat.mod_lt _ hn, rfl, ?_⟩
  intro f hf
  rw [List.set_set] at hf
  rcases List.mem_or_eq_of_mem_set hf with hmem | rfl
  · exact hfe f hmem
  · simp

/-- C9: all per-slot completion fences are created in the signaled state
(both at startup and by the windowResize reconfiguration, which both call
createSynchronizationPrimitives), and from any state satisfying the
between-frames invariant a render call never deadlocks on its infinite fence
wait — the current slot's fence is signaled or pending — and re-establishes
the invariant on completion. -/
theorem C9_fences_signaled_invariant (n : Nat) (s : RenderState)
    (acq : AcquireResult) (idx : Nat) (pres : PresentResult) :
    (∀ f ∈ createSynchronizationPrimitives n, f = FenceStatus.signaled) ∧
      (StateOK n s →
        (∀ tr, render n s acq idx pres ≠ RenderOutcome.deadlock tr) ∧
          (∀ s' tr, render n s acq idx pres = RenderOutcome.ok s' tr →
            StateOK n s')) := by
  refine ⟨createSyncPrims_all_signaled n, fun hOK => ⟨?_, ?_⟩⟩
  · intro tr hd
    unfold render at hd
    cases hfc : fenceGet s.fences s.currentFrame <;> rw [hfc] at hd
    · cases acq <;> cases pres <;>
        simp [windowResizeModel, hOK.2.2.1] at hd
    · exact fenceGet_ne_unsignaled n s hOK hfc
    · cases acq <;> cases pres <;>
        simp [windowResizeModel, hOK.2.2.1] at hd
  · intro s' tr hok
    have hprep : s.prepared = true := hOK.2.2.1
    have hcf : s.currentFrame < n := hOK.2.1
    unfold render at hok
    cases hfc : fenceGet s.fences s.currentFrame <;> rw [hfc] at hok <;>
      [skip; (exact absurd hok (fun hc => RenderOutcome.noConfusion hc)); skip] <;>
    cases acq <;>
    cases pres <;>
    simp only [windowResizeModel, hprep, if_true] at hok <;>
    first
    | (exact absurd hok (fun hc => RenderOutcome.noConfusion hc))
    | (rw [RenderOutcome.ok.injEq] at hok
       obtain ⟨hs, ht⟩ := hok
       subst hs
       first
       | (exact stateOK_after_resize n s.currentFrame hcf true)
       | (exact stateOK_after_submit n s hOK s.resized)
       | (exact ⟨by simpa using createSyncPrims_length n,
           Nat.mod_lt _ (by omega), rfl,
           fun f hf => by rw [createSyncPrims_all_signaled n f hf]; simp⟩))

/-- Witness for C9: the two-slot post-prepare state satisfies the invariant,
so a concrete render call cannot deadlock on its fence wait. -/
theorem C9_fences_signaled_invariant_witness :
    StateOK 2 sampleReadyState ∧
      ∀ tr, render 2 sampleReadyState AcquireResult.success 0 PresentResult.success ≠
        RenderOutcome.deadlock tr :=
  ⟨by decide,
   ((C9_fences_signaled_invariant 2 sampleReadyState AcquireResult.success 0
      PresentResult.success).2 (by decide)).1⟩

end Games106
